import Mathlib

/-!
Verification of the resilient action-execution core

Shallow embedding of the repository's rate limiter
(`src/utils/rate-limiter.ts`), the two proxy-pool implementations
(`src/automation/proxies.ts` and the legacy manager shipped among the
unnamed sources), and the Instagram session automation
(`src/automation/instagram.ts`), together with proofs about the
behaviours the specification ascribes to them.

Times are modelled as natural numbers of milliseconds.  JavaScript's
`Date.now()` is monotone in every run we model, so `Nat` subtraction
agrees with JS subtraction wherever the source subtracts timestamps.
-/

namespace RL

/-- State of `RateLimiter` (src/utils/rate-limiter.ts).  `timeWindow` is
stored in milliseconds, as after the constructor's `* 1000` conversion. -/
structure RateLimiter where
  maxRequests : Nat
  timeWindow : Nat
  minDelay : Nat
  maxDelay : Nat
  requestTimes : List Nat
deriving Repr

/-- The constructor: `timeWindow` is given in seconds and converted to
milliseconds; `options.minDelay || 500` and `options.maxDelay || 3000`
are JS falsy-defaulting, so an absent *or zero* option falls back to the
default. -/
def mkRateLimiter (maxRequests timeWindowSec : Nat)
    (minDelayOpt maxDelayOpt : Option Nat) : RateLimiter :=
  { maxRequests := maxRequests
    timeWindow := timeWindowSec * 1000
    minDelay := match minDelayOpt with
      | some n => if n = 0 then 500 else n
      | none => 500
    maxDelay := match maxDelayOpt with
      | some n => if n = 0 then 3000 else n
      | none => 3000
    requestTimes := [] }

/-- Number of recorded timestamps that lie inside the sliding window at
instant `now`: the filter `now - time < timeWindow` from `wait()` and
`currentRequestCount`. -/
def inWindow (W now : Nat) (ts : List Nat) : Nat :=
  (ts.filter (fun t => now - t < W)).length

/-- The `timeToWait` sleep of `wait()` lines 44-51, applied to the
already purged array: when `length >= maxRequests`, the code sleeps
`timeWindow - (now - requestTimes[0])`.  Reading index 0 of an empty
JS array yields `undefined`, making `timeToWait` NaN, and `NaN > 0` is
false, so no sleep happens — the `none` branch. -/
def sleepTime (M W : Nat) (kept : List Nat) (now : Nat) : Nat :=
  if M ≤ kept.length then
    match kept.head? with
    | some oldest => W - (now - oldest)
    | none => 0
  else 0

/-- One completed `wait()` call.  `now` is the value of `Date.now()`
read after the jitter sleep; `lag` is the (non-negative) extra time that
elapses between that read and the final `Date.now()` that is pushed,
beyond the `setTimeout` sleep the code requests (a `setTimeout` never
wakes early).  Returns the new `requestTimes` together with the push
instant.

Mirrors `wait()` line by line: purge (`filter`), hard-cap check and
sleep (`sleepTime`), then push of the post-sleep `Date.now()`. -/
def waitStep (M W : Nat) (ts : List Nat) (now lag : Nat) : List Nat × Nat :=
  let kept := ts.filter (fun t => now - t < W)
  let pushTime := now + sleepTime M W kept now + lag
  (kept ++ [pushTime], pushTime)

/-- A whole sequence of `wait()` calls.  The state is
`(requestTimes, clock)` where `clock` is the instant of the previous
push (`0` initially).  Each call is described by `(d, lag)`: the call's
`Date.now()` read happens at `clock + d` (so time never runs backwards;
`d` absorbs both the caller's think time and the jitter sleep), and
`lag` is as in `waitStep`. -/
def runWaits (M W : Nat) : List Nat × Nat → List (Nat × Nat) → List Nat × Nat
  | st, [] => st
  | st, c :: rest => runWaits M W (waitStep M W st.1 (st.2 + c.1) c.2) rest

/-- `randomDelay()`'s computed delay (src/utils/rate-limiter.ts:61):
`Math.floor(Math.random() * (maxDelay - minDelay)) + minDelay`, with the
random draw `r ∈ [0, 1)` made explicit. -/
def randomDelay (minDelay maxDelay : Nat) (r : ℚ) : ℤ :=
  ⌊r * ((maxDelay : ℚ) - (minDelay : ℚ))⌋ + (minDelay : ℤ)

lemma inWindow_eq_countP (W now : Nat) (ts : List Nat) :
    inWindow W now ts = ts.countP (fun t => now - t < W) := by
  rw [inWindow, List.countP_eq_length_filter]

/-- Moving the observation instant forward can only shrink the window
count, provided every recorded timestamp is at most the earlier
instant. -/
lemma inWindow_mono (W : Nat) {ts : List Nat} {n n' : Nat}
    (hle : ∀ t ∈ ts, t ≤ n) (hnn : n ≤ n') :
    inWindow W n' ts ≤ inWindow W n ts := by
  rw [inWindow_eq_countP, inWindow_eq_countP]
  apply List.countP_mono_left
  intro t ht hp
  have := hle t ht
  simp only [decide_eq_true_eq] at hp ⊢
  omega

/-- A filter that drops at least one listed element is strictly
shorter. -/
lemma length_filter_lt_of_mem {l : List Nat} {p : Nat → Bool} {a : Nat}
    (ha : a ∈ l) (hpa : p a = false) :
    (l.filter p).length < l.length := by
  induction l with
  | nil => cases ha
  | cons b t ih =>
      rcases List.mem_cons.1 ha with rfl | hat
      · rw [List.filter_cons, hpa]
        exact Nat.lt_succ_of_le (List.length_filter_le _ _)
      · rw [List.filter_cons]
        cases hpb : p b
        · exact Nat.lt_succ_of_lt (ih hat)
        · simpa using Nat.succ_lt_succ (ih hat)

/-- Invariant carried across `wait()` calls: the recorded timestamps
are sorted, none is in the future, and at the current instant no more
than `M` of them are inside the window. -/
structure WaitInv (M W : Nat) (ts : List Nat) (clock : Nat) : Prop where
  sorted : ts.Sorted (· ≤ ·)
  le_clock : ∀ t ∈ ts, t ≤ clock
  bound : inWindow W clock ts ≤ M

/-- One `wait()` call preserves the invariant, for any call instant
`clock + d` and any scheduling lag, provided `maxRequests ≥ 1`. -/
lemma waitStep_inv {M W : Nat} (hM : 1 ≤ M) {ts : List Nat} {clock : Nat}
    (inv : WaitInv M W ts clock) (d lag : Nat) :
    WaitInv M W (waitStep M W ts (clock + d) lag).1
      (waitStep M W ts (clock + d) lag).2 := by
  set now := clock + d with hnow
  set kept := ts.filter (fun t => now - t < W) with hkept
  set push := now + sleepTime M W kept now + lag with hpush
  have hstep : waitStep M W ts now lag = (kept ++ [push], push) := rfl
  have ksorted : kept.Sorted (· ≤ ·) := inv.sorted.filter _
  have kele : ∀ t ∈ kept, t ≤ now := by
    intro t ht
    have := inv.le_clock t (List.mem_filter.1 ht).1
    omega
  have klen : kept.length ≤ M := by
    have h1 : kept.length = inWindow W now ts := rfl
    have h2 : inWindow W now ts ≤ inWindow W clock ts :=
      inWindow_mono W inv.le_clock (Nat.le_add_right _ _)
    have := inv.bound
    omega
  have hnowpush : now ≤ push := by rw [hpush]; omega
  refine ⟨?_, ?_, ?_⟩
  · rw [hstep]
    refine (List.pairwise_append).2 ⟨ksorted, List.sorted_singleton _, ?_⟩
    intro a ha b hb
    rw [List.mem_singleton] at hb
    subst hb
    exact (kele a ha).trans hnowpush
  · rw [hstep]
    intro t ht
    rcases List.mem_append.1 ht with h | h
    · exact (kele t h).trans hnowpush
    · rw [List.mem_singleton] at h; omega
  · rw [hstep]
    show inWindow W push (kept ++ [push]) ≤ M
    rw [inWindow, List.filter_append, List.length_append]
    have hsingle : (List.filter (fun t => push - t < W) [push]).length ≤ 1 :=
      List.length_filter_le _ _
    by_cases hfull : M ≤ kept.length
    · -- the hard cap is engaged: the sleep ages the oldest entry out
      have hne : kept ≠ [] := by
        intro h
        rw [h] at hfull
        simp at hfull
        omega
      obtain ⟨o, rest, hor⟩ := List.exists_cons_of_ne_nil hne
      have hoin : o ∈ kept := by rw [hor]; exact List.mem_cons_self _ _
      have hoW : now - o < W := by
        have := List.of_mem_filter (p := fun t => now - t < W) hoin
        simpa using this
      have hole : o ≤ now := kele o hoin
      have hsleep : sleepTime M W kept now = W - (now - o) := by
        rw [sleepTime, if_pos hfull, hor]
        rfl
      have hpushW : ¬ (push - o < W) := by
        rw [hpush, hsleep]
        omega
      have hdrop : (List.filter (fun t => push - t < W) kept).length
          < kept.length :=
        length_filter_lt_of_mem hoin (by simpa using hpushW)
      omega
    · -- fewer than M entries survive the purge: room for the new grant
      have := List.length_filter_le (fun t => push - t < W) kept
      omega

/-- Every run of `wait()` calls preserves the invariant. -/
lemma runWaits_inv {M W : Nat} (hM : 1 ≤ M) :
    ∀ (calls : List (Nat × Nat)) {ts : List Nat} {clock : Nat},
      WaitInv M W ts clock →
      WaitInv M W (runWaits M W (ts, clock) calls).1
        (runWaits M W (ts, clock) calls).2 := by
  intro calls
  induction calls with
  | nil => intro ts clock inv; exact inv
  | cons c rest ih =>
      intro ts clock inv
      have h := waitStep_inv hM inv c.1 c.2
      have : runWaits M W (ts, clock) (c :: rest)
          = runWaits M W (waitStep M W ts (clock + c.1) c.2) rest := rfl
      rw [this]
      have hpair : waitStep M W ts (clock + c.1) c.2
          = ((waitStep M W ts (clock + c.1) c.2).1,
             (waitStep M W ts (clock + c.1) c.2).2) := rfl
      rw [hpair]
      exact ih h

end RL

/-! ## Fisher–Yates shuffle

Both proxy managers shuffle their pool with the same loop
(`for (let i = n-1; i > 0; i--) { j = floor(random()*(i+1)); swap }`).
`draw i` stands for `Math.floor(Math.random() * (i + 1))`; since the
random draw lies in `[0, 1)`, the source value always satisfies
`0 ≤ j ≤ i`, which the clamp `min (draw i) i` encodes. -/

namespace FY

variable {α : Type} [Inhabited α]

/-- `[a[i], a[j]] = [a[j], a[i]]` — the JS destructuring swap. -/
def swapL (l : List α) (i j : Nat) : List α :=
  (l.set i (l.getD j default)).set j (l.getD i default)

/-- The loop of the shuffle, for `i = n, n-1, ..., 1`. -/
def fyAux (draw : Nat → Nat) : List α → Nat → List α
  | l, 0 => l
  | l, i + 1 => fyAux draw (swapL l (i + 1) (min (draw (i + 1)) (i + 1))) i

/-- Fisher–Yates shuffle as written in `rotateProxies`. -/
def fisherYates (draw : Nat → Nat) (l : List α) : List α :=
  fyAux draw l (l.length - 1)

lemma swapL_length (l : List α) (i j : Nat) :
    (swapL l i j).length = l.length := by
  rw [swapL, List.length_set, List.length_set]

lemma fyAux_length (draw : Nat → Nat) :
    ∀ (i : Nat) (l : List α), (fyAux draw l i).length = l.length := by
  intro i
  induction i with
  | zero => intro l; rfl
  | succ n ih =>
      intro l
      rw [fyAux, ih, swapL_length]

lemma fisherYates_length (draw : Nat → Nat) (l : List α) :
    (fisherYates draw l).length = l.length := fyAux_length draw _ l

omit [Inhabited α] in
/-- Replacing position `m` by `a` while putting the old inhabitant in
front permutes `a :: l`. -/
lemma cons_getD_set_perm (d a : α) :
    ∀ (l : List α) (m : Nat), m < l.length →
      (l.getD m d :: l.set m a).Perm (a :: l) := by
  intro l
  induction l with
  | nil => intro m hm; simp at hm
  | cons b t ih =>
      intro m hm
      cases m with
      | zero =>
          simp only [List.getD_cons_zero, List.set_cons_zero]
          exact List.Perm.swap a b t
      | succ k =>
          have hk : k < t.length := by simpa using hm
          simp only [List.getD_cons_succ, List.set_cons_succ]
          exact (List.Perm.swap b (t.getD k d) (t.set k a)).trans
            ((List.Perm.cons b (ih k hk)).trans (List.Perm.swap a b t))

/-- An in-range swap permutes the list. -/
lemma swapL_perm : ∀ (l : List α) (i j : Nat), i < l.length →
    j < l.length → (swapL l i j).Perm l := by
  intro l
  induction l with
  | nil => intro i j hi _; simp at hi
  | cons a t ih =>
      intro i j hi hj
      cases i with
      | zero =>
          cases j with
          | zero => simp [swapL]
          | succ k =>
              have hk : k < t.length := by simpa using hj
              simp only [swapL, List.getD_cons_zero, List.getD_cons_succ,
                List.set_cons_zero, List.set_cons_succ]
              exact cons_getD_set_perm default a t k hk
      | succ m =>
          have hm : m < t.length := by simpa using hi
          cases j with
          | zero =>
              simp only [swapL, List.getD_cons_zero, List.getD_cons_succ,
                List.set_cons_succ, List.set_cons_zero]
              exact cons_getD_set_perm default a t m hm
          | succ k =>
              have hk : k < t.length := by simpa using hj
              simp only [swapL, List.getD_cons_succ, List.set_cons_succ]
              exact List.Perm.cons a (ih m k hm hk)

/-- The whole shuffle permutes the list. -/
lemma fyAux_perm (draw : Nat → Nat) :
    ∀ (i : Nat) (l : List α), i < l.length → (fyAux draw l i).Perm l := by
  intro i
  induction i with
  | zero => intro l _; exact List.Perm.refl l
  | succ n ih =>
      intro l hi
      rw [fyAux]
      have hj : min (draw (n + 1)) (n + 1) < l.length :=
        lt_of_le_of_lt (min_le_right _ _) hi
      have hswap := swapL_perm l (n + 1) (min (draw (n + 1)) (n + 1)) hi hj
      have hlen : n < (swapL l (n + 1) (min (draw (n + 1)) (n + 1))).length := by
        rw [swapL_length]
        omega
      exact (ih _ hlen).trans hswap

lemma fisherYates_perm (draw : Nat → Nat) (l : List α) :
    (fisherYates draw l).Perm l := by
  rw [fisherYates]
  rcases Nat.eq_zero_or_pos l.length with h | h
  · rw [h]
    exact List.Perm.refl l
  · exact fyAux_perm draw (l.length - 1) l (by omega)

end FY

namespace PM

/-! Embedding of `ProxyManager` (src/automation/proxies.ts).  `Date`
values are milliseconds since epoch (`Nat`); an absent optional field
is `none`. -/

/-- The `Proxy` interface of src/automation/proxies.ts. -/
structure Proxy where
  url : String
  username : Option String := none
  password : Option String := none
  lastUsed : Option Nat := none
  failCount : Option Nat := none
deriving Repr, DecidableEq

instance : Inhabited Proxy := ⟨{ url := "" }⟩

/-- Mutable fields of the `ProxyManager` class. -/
structure ProxyManager where
  proxies : List Proxy
  currentIndex : Nat
  lastRotation : Option Nat
  rotationInterval : Nat
deriving Repr, DecidableEq

/-- The constructor:
`this.rotationInterval = config.get('proxies.rotationInterval') || 3600000`
(JS falsy-defaulting: an absent *or zero* config value falls back to
one hour). -/
def mkProxyManager (configRotationInterval : Option Nat) : ProxyManager :=
  { proxies := []
    currentIndex := 0
    lastRotation := none
    rotationInterval := match configRotationInterval with
      | some n => if n = 0 then 3600000 else n
      | none => 3600000 }

/-- `initializeManualProxy` (lines 118-129): reject an empty list, then
remap each proxy, setting `failCount: 0` and dropping `lastUsed`. -/
def initializeManualProxy (pm : ProxyManager) (ps : List Proxy) :
    Except String ProxyManager :=
  if ps.length = 0 then .error "No proxies provided for manual configuration"
  else .ok { pm with proxies := ps.map (fun p =>
    { url := p.url, username := p.username, password := p.password,
      failCount := some 0 }) }

/-- `initialize` with a `manual`-typed config (lines 49-84):
`config.proxies || []` feeds `initializeManualProxy`; afterwards
`if (config.rotationInterval)` (falsy test) optionally overrides the
interval. -/
def applyRotationOverride (pm : ProxyManager) (ri : Option Nat) :
    ProxyManager :=
  match ri with
  | some n => if n = 0 then pm else { pm with rotationInterval := n }
  | none => pm

def initializeManual (pm : ProxyManager) (ps : Option (List Proxy))
    (ri : Option Nat) : Except String ProxyManager := do
  let pm1 ← initializeManualProxy pm (ps.getD [])
  pure (applyRotationOverride pm1 ri)

/-- `rotateProxies` (lines 189-207): Fisher–Yates shuffle, record the
rotation instant, reset the cursor.  (No re-fetch of any source.) -/
def rotateProxies (pm : ProxyManager) (draw : Nat → Nat) (now : Nat) :
    ProxyManager :=
  { pm with proxies := FY.fisherYates draw pm.proxies
            lastRotation := some now
            currentIndex := 0 }

/-- The lazy rotation check at the top of `getProxy` (lines 96-99):
rotate only when a previous rotation exists and
`now - lastRotation > rotationInterval`.  `lastRotation` starts `null`
and only `rotateProxies` ever assigns it, so in this manager the check
can never fire. -/
def maybeRotate (pm : ProxyManager) (now : Nat) (draw : Nat → Nat) :
    ProxyManager :=
  match pm.lastRotation with
  | some lr => if pm.rotationInterval < now - lr then rotateProxies pm draw now
               else pm
  | none => pm

/-- `getProxy` (lines 89-113): throw on an empty pool; lazily rotate;
return `proxies[currentIndex]` with `lastUsed` stamped (the array slot
is mutated in place), and advance the cursor modulo the pool size.
`failCount` is never consulted. -/
def getProxy (pm : ProxyManager) (now : Nat) (draw : Nat → Nat) :
    Except String (Proxy × ProxyManager) :=
  if pm.proxies.length = 0 then .error "No proxies available"
  else
    let pm1 := maybeRotate pm now draw
    let chosen := { pm1.proxies.getD pm1.currentIndex default with
                    lastUsed := some now }
    .ok (chosen,
      { pm1 with proxies := pm1.proxies.set pm1.currentIndex chosen
                 currentIndex := (pm1.currentIndex + 1) % pm1.proxies.length })

/-- `getStats` (lines 212-219). -/
structure ProxyStats where
  totalProxies : Nat
  activeProxies : Nat
  failedProxies : Nat
  lastRotation : Option Nat
deriving Repr, DecidableEq

/-- `!p.failCount || p.failCount < 3` — an absent or zero (falsy)
count passes outright, otherwise the count must be below 3. -/
def isActive (p : Proxy) : Bool :=
  match p.failCount with
  | none => true
  | some n => if n = 0 then true else n < 3

/-- `p.failCount && p.failCount >= 3` — a falsy count short-circuits
to false, otherwise the count must reach 3. -/
def isFailed (p : Proxy) : Bool :=
  match p.failCount with
  | none => false
  | some n => if n = 0 then false else 3 ≤ n

def getStats (pm : ProxyManager) : ProxyStats :=
  { totalProxies := pm.proxies.length
    activeProxies := (pm.proxies.filter isActive).length
    failedProxies := (pm.proxies.filter isFailed).length
    lastRotation := pm.lastRotation }

/-- The pool's public operations after initialization (the class has no
other state-touching method — in particular nothing updates
`failCount`). -/
inductive PMOp where
  | getProxyOp (now : Nat) (draw : Nat → Nat)
  | getStatsOp

/-- State after one operation; a thrown `getProxy` (empty pool) leaves
the state as it was. -/
def applyOp (pm : ProxyManager) : PMOp → ProxyManager
  | .getProxyOp now draw =>
      match getProxy pm now draw with
      | .ok (_, pm') => pm'
      | .error _ => pm
  | .getStatsOp => pm

def runOps (pm : ProxyManager) : List PMOp → ProxyManager
  | [] => pm
  | op :: rest => runOps (applyOp pm op) rest

/-- Every proxy in the pool still carries `failCount = 0`. -/
def AllZero (l : List Proxy) : Prop := ∀ p ∈ l, p.failCount = some 0

lemma allZero_fisherYates (draw : Nat → Nat) {l : List Proxy}
    (h : AllZero l) : AllZero (FY.fisherYates draw l) := by
  intro p hp
  exact h p ((FY.fisherYates_perm draw l).mem_iff.1 hp)

lemma allZero_maybeRotate {pm : ProxyManager} (now : Nat) (draw : Nat → Nat)
    (h : AllZero pm.proxies) : AllZero (maybeRotate pm now draw).proxies := by
  cases hl : pm.lastRotation with
  | none =>
      rw [maybeRotate, hl]
      exact h
  | some lr =>
      rw [maybeRotate, hl]
      show AllZero
        (if pm.rotationInterval < now - lr then rotateProxies pm draw now
         else pm).proxies
      by_cases hdue : pm.rotationInterval < now - lr
      · rw [if_pos hdue]
        exact allZero_fisherYates draw h
      · rw [if_neg hdue]
        exact h

lemma allZero_set_stamp (l : List Proxy) (idx now : Nat) (h : AllZero l) :
    AllZero (l.set idx { l.getD idx default with lastUsed := some now }) := by
  by_cases hidx : idx < l.length
  · intro p hp
    rcases List.mem_or_eq_of_mem_set hp with h1 | h1
    · exact h p h1
    · subst h1
      have hmem : l.getD idx default ∈ l := by
        rw [List.getD_eq_getElem l default hidx]
        exact List.getElem_mem hidx
      simpa using h _ hmem
  · rw [List.set_eq_of_length_le (by omega)]
    exact h

lemma getProxy_allZero {pm : ProxyManager} {now : Nat} {draw : Nat → Nat}
    {p : Proxy} {pm' : ProxyManager} (h : AllZero pm.proxies)
    (hok : getProxy pm now draw = .ok (p, pm')) : AllZero pm'.proxies := by
  rw [getProxy] at hok
  by_cases hlen : pm.proxies.length = 0
  · rw [if_pos hlen] at hok
    cases hok
  · rw [if_neg hlen] at hok
    simp only [Except.ok.injEq, Prod.mk.injEq] at hok
    obtain ⟨-, h2⟩ := hok
    subst h2
    exact allZero_set_stamp _ _ _ (allZero_maybeRotate now draw h)

lemma applyOp_allZero {pm : ProxyManager} (op : PMOp)
    (h : AllZero pm.proxies) : AllZero (applyOp pm op).proxies := by
  cases op with
  | getStatsOp => exact h
  | getProxyOp now draw =>
      rw [applyOp]
      cases hres : getProxy pm now draw with
      | error e => exact h
      | ok v => exact getProxy_allZero h (by rw [hres])

lemma runOps_allZero :
    ∀ (ops : List PMOp) (pm : ProxyManager), AllZero pm.proxies →
      AllZero (runOps pm ops).proxies := by
  intro ops
  induction ops with
  | nil => intro pm h; exact h
  | cons op rest ih =>
      intro pm h
      exact ih _ (applyOp_allZero op h)

lemma getStats_allZero {pm : ProxyManager} (h : AllZero pm.proxies) :
    (getStats pm).failedProxies = 0 ∧
      (getStats pm).activeProxies = (getStats pm).totalProxies := by
  constructor
  · show (pm.proxies.filter isFailed).length = 0
    rw [List.length_eq_zero, List.filter_eq_nil_iff]
    intro p hp
    have hz := h p hp
    simp [isFailed, hz]
  · show (pm.proxies.filter isActive).length = pm.proxies.length
    rw [List.filter_eq_self.2]
    intro p hp
    have hz := h p hp
    simp [isActive, hz]

/-- After a successful manual initialization, the pool is the remapped
input list, every entry carrying `failCount = 0`. -/
lemma initializeManual_proxies {pm : ProxyManager} {ps : Option (List Proxy)}
    {ri : Option Nat} {pm0 : ProxyManager}
    (h : initializeManual pm ps ri = .ok pm0) :
    pm0.proxies = (ps.getD []).map (fun p =>
      { url := p.url, username := p.username, password := p.password,
        failCount := some 0 }) := by
  rw [initializeManual, initializeManualProxy] at h
  by_cases h0 : (ps.getD []).length = 0
  · rw [if_pos h0] at h
    simp only [bind, Except.bind] at h
    cases h
  · rw [if_neg h0] at h
    simp only [bind, Except.bind, pure, Except.pure, Except.ok.injEq] at h
    subst h
    rw [applyRotationOverride.eq_def]
    cases ri with
    | none => rfl
    | some n =>
        dsimp only
        split <;> rfl

end PM

namespace Legacy

/-! Embedding of the legacy `ProxyManager` shipped among the repository's
unnamed sources (the variant whose `initializeFileProxy` parses
newline-delimited records and whose `rotateProxies` re-fetches from the
API source).  Its `lastRotation` is initialized to `new Date()` at
construction, so the lazy rotation check in `getProxy` can actually
fire. -/

/-- The `Proxy` interface of the legacy manager. -/
structure LProxy where
  url : String
  username : Option String := none
  password : Option String := none
  country : Option String := none
  lastUsed : Option Nat := none
deriving Repr, DecidableEq

instance : Inhabited LProxy := ⟨{ url := "" }⟩

/-- `type ProxyType = 'none' | 'manual' | 'api' | 'file'`. -/
inductive LProxyType where
  | noProxy
  | manual
  | api
  | file
deriving Repr, DecidableEq

/-- Mutable fields of the legacy `ProxyManager` class. -/
structure LPM where
  proxies : List LProxy
  currentProxyIndex : Nat
  lastRotation : Nat
deriving Repr, DecidableEq

/-- One line of the proxy file:
`const [url, username, password] = line.split(',').map(s => s.trim())`
(a missing field destructures to `undefined`). -/
def parseProxyLine (line : String) : LProxy :=
  let fields := (line.splitOn ",").map String.trim
  { url := fields.getD 0 ""
    username := fields.get? 1
    password := fields.get? 2 }

/-- `initializeFileProxy`: split the file on newlines, keep the lines
whose trim is truthy (non-empty), and parse one proxy per line. -/
def initializeFileProxy (content : String) : List LProxy :=
  ((content.splitOn "\n").filter (fun line => line.trim ≠ "")).map
    parseProxyLine

/-- `rotateProxies`: for the `api` source the list is re-fetched (and
remapped) first — `apiFetch` is the outcome of that network call, an
exception propagating; then the (possibly fresh) list is shuffled with
the Fisher–Yates loop, the cursor is reset to 0 and the rotation
instant is recorded. -/
def rotateProxies (pm : LPM) (ptype : LProxyType)
    (apiFetch : Except String (List LProxy)) (draw : Nat → Nat)
    (now : Nat) : Except String LPM :=
  match ptype with
  | .api =>
      match apiFetch with
      | .error e => .error e
      | .ok fetched =>
          .ok { proxies := FY.fisherYates draw (fetched.map (fun p =>
                  { url := p.url, username := p.username,
                    password := p.password, country := p.country }))
                currentProxyIndex := 0
                lastRotation := now }
  | _ => .ok { proxies := FY.fisherYates draw pm.proxies
               currentProxyIndex := 0
               lastRotation := now }

/-- `getProxy` of the legacy manager: an empty pool yields the sentinel
`direct://` proxy; otherwise rotation happens lazily whenever
`now - lastRotation >= rotationInterval`, and the proxy at the cursor
is returned with `lastUsed` stamped, the cursor advancing modulo the
pool size. -/
def getProxy (pm : LPM) (ptype : LProxyType) (rotationIntervalMs : Nat)
    (apiFetch : Except String (List LProxy)) (draw : Nat → Nat)
    (now : Nat) : Except String (LProxy × LPM) :=
  if pm.proxies.length = 0 then .ok ({ url := "direct://" }, pm)
  else do
    let pm1 ←
      if rotationIntervalMs ≤ now - pm.lastRotation
      then rotateProxies pm ptype apiFetch draw now
      else pure pm
    let chosen := { pm1.proxies.getD pm1.currentProxyIndex default with
                    lastUsed := some now }
    pure (chosen,
      { pm1 with
          proxies := pm1.proxies.set pm1.currentProxyIndex chosen
          currentProxyIndex :=
            (pm1.currentProxyIndex + 1) % pm1.proxies.length })

/-- A sequence of `getProxy` calls, collecting the returned proxies. -/
def runGets (ptype : LProxyType) (rotationIntervalMs : Nat)
    (apiFetch : Except String (List LProxy)) (draw : Nat → Nat) :
    LPM → List Nat → Except String (List LProxy × LPM)
  | pm, [] => .ok ([], pm)
  | pm, now :: rest => do
      let r ← getProxy pm ptype rotationIntervalMs apiFetch draw now
      let rr ← runGets ptype rotationIntervalMs apiFetch draw r.2 rest
      pure (r.1 :: rr.1, rr.2)

/-- Written from the spec's words, for comparison: a
`url,username,password` record is the first three comma-separated
fields of the line, each trimmed. -/
def specFileRecord (line : String) : LProxy :=
  { url := (((line.splitOn ",").head?.map String.trim).getD "")
    username := ((line.splitOn ",").get? 1).map String.trim
    password := ((line.splitOn ",").get? 2).map String.trim }

/-- Written from the spec's words, for comparison: the non-empty lines
of the file. -/
def specNonEmptyLines (content : String) : List String :=
  (content.splitOn "\n").filter (fun line => line.trim ≠ "")

lemma parseProxyLine_eq_spec (line : String) :
    parseProxyLine line = specFileRecord line := by
  rw [parseProxyLine, specFileRecord]
  cases h : line.splitOn "," with
  | nil => rfl
  | cons f t =>
      simp only [List.map_cons, List.getD_cons_zero, List.head?_cons,
        Option.map_some', Option.getD_some, List.get?_cons_succ,
        List.get?_map]

/-- Observable projection of a `runGets` outcome: returned urls, pool
urls, cursor, rotation instant. -/
def obs (res : Except String (List LProxy × LPM)) :
    Except String (List String × List String × Nat × Nat) :=
  res.map (fun r => (r.1.map LProxy.url, r.2.proxies.map LProxy.url,
    r.2.currentProxyIndex, r.2.lastRotation))

lemma set_getD_self {α : Type} :
    ∀ (l : List α) (n : Nat) (d : α), l.set n (l.getD n d) = l := by
  intro l
  induction l with
  | nil => intro n d; rfl
  | cons a t ih =>
      intro n d
      cases n with
      | zero => rfl
      | succ m => simp only [List.set_cons_succ, List.getD_cons_succ, ih]

/-- Stamping `lastUsed` on the slot at the cursor leaves the url
sequence of the pool unchanged. -/
lemma map_url_set_stamp (l : List LProxy) (idx now : Nat) :
    (l.set idx { l.getD idx default with lastUsed := some now }).map
      LProxy.url = l.map LProxy.url := by
  rw [List.map_set]
  have h := List.getD_map l default (n := idx) LProxy.url
  have h1 : ({ l.getD idx default with lastUsed := some now } : LProxy).url
      = (l.map LProxy.url).getD idx "" := h.symm
  rw [h1, set_getD_self]

/-- Between rotations (`now - lastRotation < rotationInterval`),
`getProxy` serves the proxy at the cursor and advances it, leaving the
pool order and `lastRotation` untouched. -/
lemma getProxy_no_rotation (pm : LPM) (ptype : LProxyType) (rotMs : Nat)
    (apiFetch : Except String (List LProxy)) (draw : Nat → Nat)
    (now : Nat) (hne : pm.proxies.length ≠ 0)
    (hnot : now - pm.lastRotation < rotMs) :
    getProxy pm ptype rotMs apiFetch draw now =
      .ok ({ pm.proxies.getD pm.currentProxyIndex default with
             lastUsed := some now },
        { pm with
            proxies := pm.proxies.set pm.currentProxyIndex
              { pm.proxies.getD pm.currentProxyIndex default with
                lastUsed := some now }
            currentProxyIndex :=
              (pm.currentProxyIndex + 1) % pm.proxies.length }) := by
  rw [getProxy, if_neg hne, if_neg (by omega)]
  rfl

/-- With a rotation due and the `api` source, `getProxy` re-fetches the
pool, shuffles the fetched list, resets the cursor to 0 and serves the
new head. -/
lemma getProxy_rotation_api (pm : LPM) (rotMs : Nat)
    (fetched : List LProxy) (draw : Nat → Nat) (now : Nat)
    (hne : pm.proxies.length ≠ 0) (hdue : rotMs ≤ now - pm.lastRotation) :
    getProxy pm .api rotMs (.ok fetched) draw now =
      (let shuffled := FY.fisherYates draw (fetched.map (fun p =>
          { url := p.url, username := p.username, password := p.password,
            country := p.country }));
       let chosen := { shuffled.getD 0 default with lastUsed := some now };
       .ok (chosen, { proxies := shuffled.set 0 chosen
                      currentProxyIndex := 1 % shuffled.length
                      lastRotation := now })) := by
  rw [getProxy, if_neg hne, if_pos hdue]
  rfl

/-- With a rotation due and a non-`api` source, `getProxy` shuffles the
existing pool (no re-fetch), resets the cursor and serves the new
head. -/
lemma getProxy_rotation_nonapi (pm : LPM) (ptype : LProxyType)
    (rotMs : Nat) (apiFetch : Except String (List LProxy))
    (draw : Nat → Nat) (now : Nat) (hne : pm.proxies.length ≠ 0)
    (hdue : rotMs ≤ now - pm.lastRotation) (hnapi : ptype ≠ .api) :
    getProxy pm ptype rotMs apiFetch draw now =
      (let shuffled := FY.fisherYates draw pm.proxies;
       let chosen := { shuffled.getD 0 default with lastUsed := some now };
       .ok (chosen, { proxies := shuffled.set 0 chosen
                      currentProxyIndex := 1 % shuffled.length
                      lastRotation := now })) := by
  rw [getProxy, if_neg hne, if_pos hdue]
  cases ptype with
  | api => exact absurd rfl hnapi
  | noProxy => rfl
  | manual => rfl
  | file => rfl

/-- Between rotations, a whole run of `getProxy` calls cycles through
the pool in stable round-robin order: the k-th call returns the url at
cursor position `(start + k) mod size`, the pool's url order never
changes, and the cursor ends `k` steps further on. -/
lemma runGets_no_rotation (ptype : LProxyType) (rotMs : Nat)
    (apiFetch : Except String (List LProxy)) (draw : Nat → Nat) :
    ∀ (times : List Nat) (pm : LPM),
      pm.proxies ≠ [] → pm.currentProxyIndex < pm.proxies.length →
      (∀ t ∈ times, t - pm.lastRotation < rotMs) →
      obs (runGets ptype rotMs apiFetch draw pm times)
        = .ok ((List.range times.length).map (fun i =>
              (pm.proxies.map LProxy.url).getD
                ((pm.currentProxyIndex + i) % pm.proxies.length) ""),
            pm.proxies.map LProxy.url,
            (pm.currentProxyIndex + times.length) % pm.proxies.length,
            pm.lastRotation) := by
  intro times
  induction times with
  | nil =>
      intro pm hne hidx hts
      simp only [runGets, obs, Except.map, List.range_zero, List.map_nil,
        List.length_nil, Nat.add_zero, Nat.mod_eq_of_lt hidx]
  | cons now rest ih =>
      intro pm hne hidx hts
      have hlen0 : pm.proxies.length ≠ 0 := fun h => hne (List.length_eq_zero.1 h)
      have hlenpos : 0 < pm.proxies.length := Nat.pos_of_ne_zero hlen0
      have hnow : now - pm.lastRotation < rotMs := hts now (List.mem_cons_self _ _)
      have hstep := getProxy_no_rotation pm ptype rotMs apiFetch draw now hlen0 hnow
      simp only [runGets]
      rw [hstep]
      simp only [bind, Except.bind]
      set stamped : LProxy :=
        { pm.proxies.getD pm.currentProxyIndex default with
          lastUsed := some now } with hstamped
      set pm1 : LPM :=
        { pm with
            proxies := pm.proxies.set pm.currentProxyIndex stamped
            currentProxyIndex :=
              (pm.currentProxyIndex + 1) % pm.proxies.length } with hpm1
      have hm1urls : pm1.proxies.map LProxy.url = pm.proxies.map LProxy.url :=
        map_url_set_stamp pm.proxies pm.currentProxyIndex now
      have hm1len : pm1.proxies.length = pm.proxies.length :=
        List.length_set _ _ _
      have hm1ne : pm1.proxies ≠ [] := by
        intro h
        rw [h] at hm1len
        exact hlen0 hm1len.symm
      have hm1idx : pm1.currentProxyIndex < pm1.proxies.length := by
        rw [hm1len]
        exact Nat.mod_lt _ hlenpos
      have ihh := ih pm1 hm1ne hm1idx
        (fun t ht => hts t (List.mem_cons_of_mem _ ht))
      cases hrr : runGets ptype rotMs apiFetch draw pm1 rest with
      | error e =>
          rw [hrr] at ihh
          simp [obs, Except.map] at ihh
      | ok w =>
          rw [hrr] at ihh
          simp only [obs, Except.map, pure, Except.pure, Except.ok.injEq,
            Prod.mk.injEq] at ihh ⊢
          obtain ⟨ih1, ih2, ih3, ih4⟩ := ihh
          have hsu : stamped.url = (pm.proxies.map LProxy.url).getD
              pm.currentProxyIndex "" :=
            (List.getD_map pm.proxies default LProxy.url).symm
          have hm1urls' : List.map LProxy.url
              (pm.proxies.set pm.currentProxyIndex stamped)
              = List.map LProxy.url pm.proxies := hm1urls
          have hm1len' : (pm.proxies.set pm.currentProxyIndex stamped).length
              = pm.proxies.length := hm1len
          refine ⟨?_, ?_, ?_, ?_⟩
          · rw [List.map_cons, List.length_cons, List.range_succ_eq_map,
              List.map_cons, List.map_map]
            congr 1
            · rw [hsu, Nat.add_zero, Nat.mod_eq_of_lt hidx]
            · rw [ih1, hm1urls', hm1len']
              apply List.map_congr_left
              intro i _
              simp only [Function.comp_apply, Nat.succ_eq_add_one]
              rw [Nat.mod_add_mod]
              have harith : pm.currentProxyIndex + 1 + i
                  = pm.currentProxyIndex + (i + 1) := by omega
              rw [harith]
          · rw [ih2, hm1urls']
          · rw [ih3, hm1len']
            rw [Nat.mod_add_mod, List.length_cons]
            have harith : pm.currentProxyIndex + 1 + rest.length
                = pm.currentProxyIndex + (rest.length + 1) := by omega
            rw [harith]
          · exact ih4

end Legacy

namespace IG

/-! Embedding of `InstagramAutomation` (src/automation/instagram.ts).
The session state the class owns is `this.page` (here an identifying
number, `none` when never initialized) and `this.isLoggedIn`.  Each
method takes an environment describing what the page/network did
(which optional dialogs appeared, which steps succeeded); a thrown
exception escaping the method is `Except.error`, a normal boolean
return is `Except.ok`.  The event list records the browser
interactions the method performed. -/

/-- Selector constants from src/automation/selectors.ts used by the
modelled flows. -/
def LIKE_BUTTON : String := "svg[aria-label=\"Like\"]"

def UNLIKE_BUTTON : String := "svg[aria-label=\"Unlike\"]"

def FOLLOW_BUTTON : String := "button._acan._acap._acas._aj1-"

def UNFOLLOW_BUTTON : String := "button._acan._acap._acat._aj1-"

def CONFIRM_UNFOLLOW_BUTTON : String := "button._a9--._a9_1"

/-- The session-owned fields of `InstagramAutomation`. -/
structure Session where
  page : Option Nat
  isLoggedIn : Bool
deriving Repr, DecidableEq

/-- Browser interactions. -/
inductive Ev where
  | acquireProxy
  | newContext
  | newPage
  | goto (url : String)
  | click (selector : String)
deriving Repr, DecidableEq

structure InitEnv where
  useProxy : Bool
  proxyOk : Bool
  contextOk : Bool
  newPageId : Nat
deriving Repr, DecidableEq

/-- `initialize()` (lines 34-105): acquire a proxy when
`config.get('proxy.use')` is set (a failure there, like any error in
the body, is logged and rethrown), then unconditionally create a new
browser context and a new page and rebind `this.page`.  `isLoggedIn`
is neither consulted nor changed. -/
def initializeBrowser (s : Session) (e : InitEnv) :
    Except String (Session × List Ev) :=
  if e.useProxy ∧ ¬ e.proxyOk then .error "proxy acquisition failed"
  else if ¬ e.contextOk then .error "context creation failed"
  else .ok ({ s with page := some e.newPageId },
    (if e.useProxy then [Ev.acquireProxy] else [])
      ++ [Ev.newContext, Ev.newPage])

structure LoginEnv where
  credsProvided : Bool
  stepsSucceed : Bool
  twoFactorShown : Bool
  twoFactorCodeAvailable : Bool
  profileIconAppears : Bool
deriving Repr, DecidableEq

/-- `login()` (lines 107-203): throws only when `this.page` was never
initialized.  Inside the `try`, missing credentials throw, any page
step can throw, a shown 2FA prompt with no configured code throws, and
the post-login landmark can time out — all of these are caught by the
`catch`, which screenshots, inspects error indicators, and returns
`false` without touching the session fields.  Only the full success
path sets `isLoggedIn := true`. -/
def login (s : Session) (e : LoginEnv) : Except String (Bool × Session) :=
  if s.page = none then .error "Browser page not initialized"
  else if ¬ e.credsProvided then .ok (false, s)
  else if ¬ e.stepsSucceed then .ok (false, s)
  else if e.twoFactorShown ∧ ¬ e.twoFactorCodeAvailable then .ok (false, s)
  else if ¬ e.profileIconAppears then .ok (false, s)
  else .ok (true, { s with isLoggedIn := true })

structure PostEnv where
  stepsSucceed : Bool
deriving Repr, DecidableEq

/-- `createPost()` (lines 205-261): throws when the page is missing or
the session is not logged in; otherwise the whole
click/upload/caption/share/verify chain either succeeds (`true`) or
its failure is caught (diagnostic screenshot, itself guarded) and
`false` is returned.  Session fields are never written. -/
def createPost (s : Session) (e : PostEnv) : Except String (Bool × Session) :=
  if s.page = none ∨ s.isLoggedIn = false then
    .error "Not logged in to Instagram"
  else if ¬ e.stepsSucceed then .ok (false, s)
  else .ok (true, s)

structure CommentEnv where
  stepsSucceed : Bool
deriving Repr, DecidableEq

/-- `commentOnPost()` (lines 297-332): same shape as `createPost`. -/
def commentOnPost (s : Session) (e : CommentEnv) :
    Except String (Bool × Session) :=
  if s.page = none ∨ s.isLoggedIn = false then
    .error "Not logged in to Instagram"
  else if ¬ e.stepsSucceed then .ok (false, s)
  else .ok (true, s)

structure LikeEnv where
  gotoOk : Bool
  alreadyLiked : Bool
  clickOk : Bool
  likeVerified : Bool
deriving Repr, DecidableEq

/-- `likePost(postUrl)` (lines 263-295): after the ready-check throw,
navigate to the post; if the `UNLIKE_BUTTON` landmark is present the
post is already liked and the method returns `true` without clicking;
otherwise it clicks `LIKE_BUTTON` and waits for the landmark, any
failure being caught into `false`. -/
def likePost (s : Session) (postUrl : String) (e : LikeEnv) :
    Except String (Bool × Session × List Ev) :=
  if s.page = none ∨ s.isLoggedIn = false then
    .error "Not logged in to Instagram"
  else if ¬ e.gotoOk then .ok (false, s, [Ev.goto postUrl])
  else if e.alreadyLiked then .ok (true, s, [Ev.goto postUrl])
  else if ¬ e.clickOk then
    .ok (false, s, [Ev.goto postUrl, Ev.click LIKE_BUTTON])
  else if ¬ e.likeVerified then
    .ok (false, s, [Ev.goto postUrl, Ev.click LIKE_BUTTON])
  else .ok (true, s, [Ev.goto postUrl, Ev.click LIKE_BUTTON])

/-- The profile url `https://www.instagram.com/${username}/`. -/
def profileUrl (username : String) : String :=
  "https://www.instagram.com/" ++ username ++ "/"

structure FollowEnv where
  gotoOk : Bool
  alreadyFollowing : Bool
  clickOk : Bool
  followVerified : Bool
deriving Repr, DecidableEq

/-- `followUser(username)` (lines 334-368): mirror of `likePost` with
the `UNFOLLOW_BUTTON` landmark as the already-following check. -/
def followUser (s : Session) (username : String) (e : FollowEnv) :
    Except String (Bool × Session × List Ev) :=
  if s.page = none ∨ s.isLoggedIn = false then
    .error "Not logged in to Instagram"
  else if ¬ e.gotoOk then .ok (false, s, [Ev.goto (profileUrl username)])
  else if e.alreadyFollowing then
    .ok (true, s, [Ev.goto (profileUrl username)])
  else if ¬ e.clickOk then
    .ok (false, s, [Ev.goto (profileUrl username), Ev.click FOLLOW_BUTTON])
  else if ¬ e.followVerified then
    .ok (false, s, [Ev.goto (profileUrl username), Ev.click FOLLOW_BUTTON])
  else .ok (true, s, [Ev.goto (profileUrl username), Ev.click FOLLOW_BUTTON])

structure UnfollowEnv where
  gotoOk : Bool
  following : Bool
  clickOk : Bool
  confirmDialog : Bool
  confirmClickOk : Bool
  unfollowVerified : Bool
deriving Repr, DecidableEq

/-- `unfollowUser(username)` (lines 370-410): when the
`UNFOLLOW_BUTTON` landmark is absent the account is not being followed
and the method returns `true` without clicking; otherwise it clicks
unfollow, dismisses the optional confirmation dialog, and waits for
`FOLLOW_BUTTON` to reappear. -/
def unfollowUser (s : Session) (username : String) (e : UnfollowEnv) :
    Except String (Bool × Session × List Ev) :=
  if s.page = none ∨ s.isLoggedIn = false then
    .error "Not logged in to Instagram"
  else if ¬ e.gotoOk then .ok (false, s, [Ev.goto (profileUrl username)])
  else if ¬ e.following then .ok (true, s, [Ev.goto (profileUrl username)])
  else if ¬ e.clickOk then
    .ok (false, s, [Ev.goto (profileUrl username), Ev.click UNFOLLOW_BUTTON])
  else
    let tr := [Ev.goto (profileUrl username), Ev.click UNFOLLOW_BUTTON]
      ++ (if e.confirmDialog then [Ev.click CONFIRM_UNFOLLOW_BUTTON] else [])
    if e.confirmDialog ∧ ¬ e.confirmClickOk then .ok (false, s, tr)
    else if ¬ e.unfollowVerified then .ok (false, s, tr)
    else .ok (true, s, tr)

end IG

/-- C6: every local proxy file is parsed by the legacy file-source
initialization as newline-delimited `url,username,password` records —
the proxies are exactly the spec-side records of the non-empty lines,
one proxy per non-empty line.  (The other `ProxyManager`
implementation, in src/automation/proxies.ts, instead parses the file
as a JSON array; the spec sentence describes the legacy manager, which
this theorem verifies against a record/line definition transcribed
from the spec's words.) -/
theorem legacy_file_source_line_records (content : String) :
    Legacy.initializeFileProxy content
      = (Legacy.specNonEmptyLines content).map Legacy.specFileRecord ∧
    (Legacy.initializeFileProxy content).length
      = (Legacy.specNonEmptyLines content).length := by
  have hmain : Legacy.initializeFileProxy content
      = (Legacy.specNonEmptyLines content).map Legacy.specFileRecord := by
    rw [Legacy.initializeFileProxy, Legacy.specNonEmptyLines]
    exact List.map_congr_left (fun line _ => Legacy.parseProxyLine_eq_spec line)
  exact ⟨hmain, by rw [hmain, List.length_map]⟩

/-- C7: rotation is checked lazily on every `getProxy` of the legacy
manager.  When `now - lastRotation` reaches the configured interval,
the pool is reshuffled with the Fisher–Yates loop — re-fetching the
list first when the source is the remote API, and shuffling the
existing pool otherwise — the rotation cursor is reset to the start
(so this call serves slot 0 and leaves the cursor at `1 mod size`),
and `lastRotation` is updated; the shuffle is a permutation of the
pool; and between rotations successive calls cycle through the pool in
stable round-robin order. -/
theorem legacy_lazy_rotation_round_robin (pm : Legacy.LPM)
    (ptype : Legacy.LProxyType) (rotMs : Nat)
    (apiFetch : Except String (List Legacy.LProxy))
    (fetched : List Legacy.LProxy) (draw : Nat → Nat) (now : Nat)
    (times : List Nat) :
    (pm.proxies.length ≠ 0 → rotMs ≤ now - pm.lastRotation →
      Legacy.getProxy pm .api rotMs (.ok fetched) draw now =
        (let shuffled := FY.fisherYates draw (fetched.map (fun p =>
            { url := p.url, username := p.username, password := p.password,
              country := p.country }));
         let chosen := { shuffled.getD 0 default with lastUsed := some now };
         .ok (chosen, { proxies := shuffled.set 0 chosen
                        currentProxyIndex := 1 % shuffled.length
                        lastRotation := now }))) ∧
    (pm.proxies.length ≠ 0 → rotMs ≤ now - pm.lastRotation →
      ptype ≠ .api →
      Legacy.getProxy pm ptype rotMs apiFetch draw now =
        (let shuffled := FY.fisherYates draw pm.proxies;
         let chosen := { shuffled.getD 0 default with lastUsed := some now };
         .ok (chosen, { proxies := shuffled.set 0 chosen
                        currentProxyIndex := 1 % shuffled.length
                        lastRotation := now }))) ∧
    (FY.fisherYates draw pm.proxies).Perm pm.proxies ∧
    (pm.proxies ≠ [] → pm.currentProxyIndex < pm.proxies.length →
      (∀ t ∈ times, t - pm.lastRotation < rotMs) →
      Legacy.obs (Legacy.runGets ptype rotMs apiFetch draw pm times)
        = .ok ((List.range times.length).map (fun i =>
              (pm.proxies.map Legacy.LProxy.url).getD
                ((pm.currentProxyIndex + i) % pm.proxies.length) ""),
            pm.proxies.map Legacy.LProxy.url,
            (pm.currentProxyIndex + times.length) % pm.proxies.length,
            pm.lastRotation)) :=
  ⟨fun hne hdue => Legacy.getProxy_rotation_api pm rotMs fetched draw now hne hdue,
   fun hne hdue hnapi =>
     Legacy.getProxy_rotation_nonapi pm ptype rotMs apiFetch draw now hne hdue hnapi,
   FY.fisherYates_perm draw pm.proxies,
   fun hne hidx hts =>
     Legacy.runGets_no_rotation ptype rotMs apiFetch draw times pm hne hidx hts⟩

/-- Witness for C7: a rotation-due `api` call re-fetches and shuffles
(`[c, d]` becomes `[d, c]` under draw 0 and is served from slot 0),
and three in-window calls on the pool `[a, b]` return
`a, b, a` — stable round-robin. -/
theorem legacy_lazy_rotation_round_robin_witness :
    (10 : Nat) ≤ 11 - 0 ∧
    (∀ t ∈ ([1, 2, 3] : List Nat), t - 0 < 10) ∧
    Legacy.getProxy
      { proxies := [{ url := "http://a" }, { url := "http://b" }],
        currentProxyIndex := 0, lastRotation := 0 } .api 10
      (.ok [{ url := "http://c" }, { url := "http://d" }]) (fun _ => 0) 11
    = .ok ({ url := "http://d", lastUsed := some 11 },
        { proxies := [{ url := "http://d", lastUsed := some 11 },
                      { url := "http://c" }],
          currentProxyIndex := 1, lastRotation := 11 }) ∧
    Legacy.obs (Legacy.runGets .manual 10 (.ok []) (fun _ => 0)
        { proxies := [{ url := "http://a" }, { url := "http://b" }],
          currentProxyIndex := 0, lastRotation := 0 } [1, 2, 3])
      = .ok (["http://a", "http://b", "http://a"],
          ["http://a", "http://b"], 1, 0) := by
  refine ⟨by decide, by decide, ?_, ?_⟩
  · exact (legacy_lazy_rotation_round_robin
      { proxies := [{ url := "http://a" }, { url := "http://b" }],
        currentProxyIndex := 0, lastRotation := 0 }
      .api 10 (.ok [{ url := "http://c" }, { url := "http://d" }])
      [{ url := "http://c" }, { url := "http://d" }] (fun _ => 0) 11
      [1, 2, 3]).1 (by decide) (by decide)
  · exact (legacy_lazy_rotation_round_robin
      { proxies := [{ url := "http://a" }, { url := "http://b" }],
        currentProxyIndex := 0, lastRotation := 0 }
      .manual 10 (.ok []) [] (fun _ => 0) 11 [1, 2, 3]).2.2.2
      (by decide) (by decide) (by decide)

/-- C1 (counterexample): with `maxRequests = 0` the claimed window
invariant fails.  `wait()` still records a grant — the purged array has
length `0 >= maxRequests`, `requestTimes[0]` is `undefined`, the NaN
comparison skips the sleep, and a timestamp is pushed — so one
timestamp (newer than `now - W`) is in the window although `M = 0`. -/
theorem rateLimiter_window_bound_cex :
    ¬ (RL.inWindow 5 ((RL.runWaits 0 5 ([], 0) [(0, 0)]).2 + 0)
        (RL.runWaits 0 5 ([], 0) [(0, 0)]).1 ≤ 0) := by decide

/-- C1 (amended: `maxRequests ≥ 1`): for every sequence of completed
`RateLimiter.wait()` calls on one limiter with `maxRequests = M ≥ 1`
and window `W`, and at every instant at or after the last grant, the
number of recorded timestamps newer than `now - W` (timestamps older
than `W` having been lazily purged on each call) never exceeds `M`.
Quantifying over all call sequences covers every prefix of a run, hence
every instant of it. -/
theorem rateLimiter_window_bound (M W : Nat) (hM : 1 ≤ M)
    (calls : List (Nat × Nat)) (q : Nat) :
    RL.inWindow W ((RL.runWaits M W ([], 0) calls).2 + q)
      (RL.runWaits M W ([], 0) calls).1 ≤ M := by
  have inv0 : RL.WaitInv M W [] 0 :=
    ⟨List.sorted_nil, (by intro t ht; cases ht), (by simp [RL.inWindow])⟩
  have inv := RL.runWaits_inv hM calls inv0
  exact le_trans (RL.inWindow_mono W inv.le_clock (Nat.le_add_right _ _))
    inv.bound

/-- Witness for C1: three grants under `M = 2`, `W = 10`. -/
theorem rateLimiter_window_bound_witness :
    1 ≤ 2 ∧
    RL.inWindow 10 ((RL.runWaits 2 10 ([], 0) [(0, 0), (3, 1), (2, 0)]).2 + 4)
      (RL.runWaits 2 10 ([], 0) [(0, 0), (3, 1), (2, 0)]).1 ≤ 2 :=
  ⟨by decide, rateLimiter_window_bound 2 10 (by decide) [(0, 0), (3, 1), (2, 0)] 4⟩

/-- C8: for every `wait()` call, the injected random delay
`Math.floor(random * (maxDelay - minDelay)) + minDelay` lies in the
closed interval `[minDelay, maxDelay]`, for every random draw
`r ∈ [0, 1)` (assuming the configured bounds satisfy
`minDelay ≤ maxDelay`, as the defaults 500/3000 do). -/
theorem rateLimiter_jitter_bound (minD maxD : Nat) (hb : minD ≤ maxD)
    (r : ℚ) (h0 : 0 ≤ r) (h1 : r < 1) :
    (minD : ℤ) ≤ RL.randomDelay minD maxD r ∧
      RL.randomDelay minD maxD r ≤ (maxD : ℤ) := by
  unfold RL.randomDelay
  have hD : (0 : ℚ) ≤ (maxD : ℚ) - (minD : ℚ) := by
    have : (minD : ℚ) ≤ (maxD : ℚ) := by exact_mod_cast hb
    linarith
  constructor
  · have h2 : (0 : ℤ) ≤ ⌊r * ((maxD : ℚ) - (minD : ℚ))⌋ :=
      Int.floor_nonneg.2 (mul_nonneg h0 hD)
    omega
  · have h2 : r * ((maxD : ℚ) - (minD : ℚ)) ≤ (maxD : ℚ) - (minD : ℚ) := by
      calc r * ((maxD : ℚ) - (minD : ℚ))
          ≤ 1 * ((maxD : ℚ) - (minD : ℚ)) :=
            mul_le_mul_of_nonneg_right h1.le hD
        _ = (maxD : ℚ) - (minD : ℚ) := one_mul _
    have h3 := Int.floor_le_floor h2
    have h4 : ((maxD : ℚ) - (minD : ℚ)) = (((maxD : ℤ) - (minD : ℤ) : ℤ) : ℚ) := by
      push_cast
      ring
    have h5 : ⌊(maxD : ℚ) - (minD : ℚ)⌋ = (maxD : ℤ) - (minD : ℤ) := by
      rw [h4, Int.floor_intCast]
    rw [h5] at h3
    omega

/-- C2 (counterexample): the pool does not skip proxies whose failure
count has crossed the threshold of 3, and it has no
`PoolExhaustedError`: with the single proxy of the pool at
`failCount = 3` (per the claim, excluded, so the pool is exhausted),
`getProxy` still hands that proxy out. -/
theorem proxyPool_exclusion_cex :
    PM.getProxy
      { proxies := [{ url := "http://p1", failCount := some 3 }],
        currentIndex := 0, lastRotation := none, rotationInterval := 3600000 }
      5 (fun _ => 0)
    = .ok ({ url := "http://p1", lastUsed := some 5, failCount := some 3 },
        { proxies := [{ url := "http://p1", lastUsed := some 5,
                        failCount := some 3 }],
          currentIndex := 0, lastRotation := none,
          rotationInterval := 3600000 }) := rfl

/-- C2 (amended): `getProxy` serves proxies in plain round-robin order
regardless of any proxy's `failCount` (no skipping, no exclusion
threshold): on a non-empty pool it returns `proxies[currentIndex]` with
`lastUsed` freshly stamped and advances the cursor modulo the pool
size, and its only failure is `"No proxies available"` on an empty
pool.  No `reportOutcome` operation exists anywhere in the class, so
failure counts are never incremented or reset after initialization. -/
theorem proxyPool_round_robin_ignores_failures (pm : PM.ProxyManager)
    (now : Nat) (draw : Nat → Nat) :
    (pm.proxies = [] → PM.getProxy pm now draw = .error "No proxies available") ∧
    (pm.proxies ≠ [] → pm.lastRotation = none →
      PM.getProxy pm now draw =
        .ok ({ pm.proxies.getD pm.currentIndex default with
               lastUsed := some now },
          { pm with
              proxies := pm.proxies.set pm.currentIndex
                { pm.proxies.getD pm.currentIndex default with
                  lastUsed := some now }
              currentIndex := (pm.currentIndex + 1) % pm.proxies.length })) := by
  constructor
  · intro he
    rw [PM.getProxy, if_pos (by rw [he]; rfl)]
  · intro hne hrot
    have hmr : PM.maybeRotate pm now draw = pm := by
      rw [PM.maybeRotate, hrot]
    rw [PM.getProxy, if_neg (fun h => hne (List.length_eq_zero.1 h)), hmr]

/-- Witness for C2 (amended): a two-proxy pool, one of the proxies
already at `failCount = 3`, is still served at the cursor. -/
theorem proxyPool_round_robin_ignores_failures_witness :
    ([{ url := "http://a", failCount := some 3 },
      { url := "http://b", failCount := some 0 }] : List PM.Proxy) ≠ [] ∧
    PM.getProxy
      { proxies := [{ url := "http://a", failCount := some 3 },
                    { url := "http://b", failCount := some 0 }],
        currentIndex := 0, lastRotation := none, rotationInterval := 3600000 }
      7 (fun _ => 0)
    = .ok ({ url := "http://a", lastUsed := some 7, failCount := some 3 },
        { proxies := [{ url := "http://a", lastUsed := some 7,
                        failCount := some 3 },
                      { url := "http://b", failCount := some 0 }],
          currentIndex := 1, lastRotation := none,
          rotationInterval := 3600000 }) := by
  refine ⟨by decide, ?_⟩
  exact (proxyPool_round_robin_ignores_failures
    { proxies := [{ url := "http://a", failCount := some 3 },
                  { url := "http://b", failCount := some 0 }],
      currentIndex := 0, lastRotation := none, rotationInterval := 3600000 }
    7 (fun _ => 0)).2 (by decide) rfl

/-- C9: after a successful manual initialization every proxy's
`failCount` is 0, and no sequence of pool operations (`getProxy`,
including its lazy rotation, or `getStats`) ever changes any
`failCount`; consequently `getStats` always reports
`failedProxies = 0` and `activeProxies = totalProxies`. -/
theorem proxyPool_failCount_frozen (pm : PM.ProxyManager)
    (ps : Option (List PM.Proxy)) (ri : Option Nat)
    (pm0 : PM.ProxyManager)
    (hinit : PM.initializeManual pm ps ri = .ok pm0)
    (ops : List PM.PMOp) :
    PM.AllZero (PM.runOps pm0 ops).proxies ∧
      (PM.getStats (PM.runOps pm0 ops)).failedProxies = 0 ∧
      (PM.getStats (PM.runOps pm0 ops)).activeProxies
        = (PM.getStats (PM.runOps pm0 ops)).totalProxies := by
  have h0 : PM.AllZero pm0.proxies := by
    rw [PM.initializeManual_proxies hinit]
    intro p hp
    obtain ⟨q, -, rfl⟩ := List.mem_map.1 hp
    rfl
  have hall := PM.runOps_allZero ops pm0 h0
  exact ⟨hall, PM.getStats_allZero hall⟩

/-- Witness for C9: one-proxy manual pool, then a `getProxy` and a
`getStats`. -/
theorem proxyPool_failCount_frozen_witness :
    PM.initializeManual (PM.mkProxyManager none)
      (some [{ url := "http://p1" }]) none
    = .ok { proxies := [{ url := "http://p1", failCount := some 0 }],
            currentIndex := 0, lastRotation := none,
            rotationInterval := 3600000 } ∧
    (PM.AllZero (PM.runOps
        { proxies := [{ url := "http://p1", failCount := some 0 }],
          currentIndex := 0, lastRotation := none,
          rotationInterval := 3600000 }
        [PM.PMOp.getProxyOp 5 (fun _ => 0), PM.PMOp.getStatsOp]).proxies ∧
      (PM.getStats (PM.runOps
        { proxies := [{ url := "http://p1", failCount := some 0 }],
          currentIndex := 0, lastRotation := none,
          rotationInterval := 3600000 }
        [PM.PMOp.getProxyOp 5 (fun _ => 0), PM.PMOp.getStatsOp])).failedProxies = 0 ∧
      (PM.getStats (PM.runOps
        { proxies := [{ url := "http://p1", failCount := some 0 }],
          currentIndex := 0, lastRotation := none,
          rotationInterval := 3600000 }
        [PM.PMOp.getProxyOp 5 (fun _ => 0), PM.PMOp.getStatsOp])).activeProxies
        = (PM.getStats (PM.runOps
        { proxies := [{ url := "http://p1", failCount := some 0 }],
          currentIndex := 0, lastRotation := none,
          rotationInterval := 3600000 }
        [PM.PMOp.getProxyOp 5 (fun _ => 0), PM.PMOp.getStatsOp])).totalProxies) :=
  ⟨rfl, proxyPool_failCount_frozen (PM.mkProxyManager none)
    (some [{ url := "http://p1" }]) none
    { proxies := [{ url := "http://p1", failCount := some 0 }],
      currentIndex := 0, lastRotation := none, rotationInterval := 3600000 }
    rfl [PM.PMOp.getProxyOp 5 (fun _ => 0), PM.PMOp.getStatsOp]⟩

/-- Witness for C8: the default bounds 500/3000 at draw `r = 1/2`. -/
theorem rateLimiter_jitter_bound_witness :
    (500 : Nat) ≤ 3000 ∧ (0 : ℚ) ≤ 1/2 ∧ (1/2 : ℚ) < 1 ∧
    ((500 : Nat) : ℤ) ≤ RL.randomDelay 500 3000 (1/2) ∧
      RL.randomDelay 500 3000 (1/2) ≤ ((3000 : Nat) : ℤ) :=
  ⟨by norm_num, by norm_num, by norm_num,
    rateLimiter_jitter_bound 500 3000 (by norm_num) (1/2) (by norm_num) (by norm_num)⟩

/-- C3: when the target is already in the desired state — the
`UNLIKE_BUTTON` landmark present for a like, present for a follow,
absent for an unfollow — the action returns success right after the
navigation, performing no click. -/
theorem ig_idempotent_short_circuit (s : IG.Session) (pid : Nat)
    (hpage : s.page = some pid) (hlog : s.isLoggedIn = true)
    (postUrl username : String)
    (le : IG.LikeEnv) (fe : IG.FollowEnv) (ue : IG.UnfollowEnv)
    (hlg : le.gotoOk = true) (hlk : le.alreadyLiked = true)
    (hfg : fe.gotoOk = true) (hff : fe.alreadyFollowing = true)
    (hug : ue.gotoOk = true) (huf : ue.following = false) :
    IG.likePost s postUrl le = .ok (true, s, [IG.Ev.goto postUrl]) ∧
    IG.followUser s username fe
      = .ok (true, s, [IG.Ev.goto (IG.profileUrl username)]) ∧
    IG.unfollowUser s username ue
      = .ok (true, s, [IG.Ev.goto (IG.profileUrl username)]) := by
  have hready : ¬ (s.page = none ∨ s.isLoggedIn = false) := by
    rw [hpage, hlog]
    simp
  refine ⟨?_, ?_, ?_⟩
  · rw [IG.likePost, if_neg hready, if_neg (by simp [hlg]),
      if_pos (by simp [hlk])]
  · rw [IG.followUser, if_neg hready, if_neg (by simp [hfg]),
      if_pos (by simp [hff])]
  · rw [IG.unfollowUser, if_neg hready, if_neg (by simp [hug]),
      if_pos (by simp [huf])]

/-- Witness for C3: a ready session on an already-liked post, an
already-followed account, and a not-followed account. -/
theorem ig_idempotent_short_circuit_witness :
    IG.likePost ⟨some 0, true⟩ "https://www.instagram.com/p/xyz/"
      ⟨true, true, true, true⟩
      = .ok (true, ⟨some 0, true⟩,
          [IG.Ev.goto "https://www.instagram.com/p/xyz/"]) ∧
    IG.followUser ⟨some 0, true⟩ "bob" ⟨true, true, true, true⟩
      = .ok (true, ⟨some 0, true⟩, [IG.Ev.goto (IG.profileUrl "bob")]) ∧
    IG.unfollowUser ⟨some 0, true⟩ "bob" ⟨true, false, true, false, true, true⟩
      = .ok (true, ⟨some 0, true⟩, [IG.Ev.goto (IG.profileUrl "bob")]) :=
  ig_idempotent_short_circuit ⟨some 0, true⟩ 0 rfl rfl
    "https://www.instagram.com/p/xyz/" "bob"
    ⟨true, true, true, true⟩ ⟨true, true, true, true⟩
    ⟨true, false, true, false, true, true⟩ rfl rfl rfl rfl rfl rfl

/-- C4 (counterexample): with the session not logged in, `likePost`
throws `Not logged in to Instagram` to the caller instead of returning
a failed result — the ready-check sits before the `try`. -/
theorem ig_unhandled_throw_cex :
    IG.likePost { page := some 0, isLoggedIn := false }
      "https://www.instagram.com/p/xyz/"
      { gotoOk := true, alreadyLiked := false, clickOk := true,
        likeVerified := true }
      = .error "Not logged in to Instagram" := rfl

/-- C4 (amended): when the session has an initialized page and is
logged in, every action (post, comment, like, follow, unfollow)
returns a boolean result and never lets an exception escape — every
failure inside the body is caught and reported as a `false` result;
but on a session that is not ready, each action throws. -/
theorem ig_no_throw_when_ready (s : IG.Session) (hpage : s.page ≠ none)
    (hlog : s.isLoggedIn = true) (postUrl username : String)
    (pe : IG.PostEnv) (ce : IG.CommentEnv) (le : IG.LikeEnv)
    (fe : IG.FollowEnv) (ue : IG.UnfollowEnv) :
    (IG.createPost s pe).isOk = true ∧
    (IG.commentOnPost s ce).isOk = true ∧
    (IG.likePost s postUrl le).isOk = true ∧
    (IG.followUser s username fe).isOk = true ∧
    (IG.unfollowUser s username ue).isOk = true := by
  have hready : ¬ (s.page = none ∨ s.isLoggedIn = false) := by
    intro h
    rcases h with h | h
    · exact hpage h
    · rw [hlog] at h
      cases h
  refine ⟨?_, ?_, ?_, ?_, ?_⟩
  · rw [IG.createPost, if_neg hready]
    split <;> rfl
  · rw [IG.commentOnPost, if_neg hready]
    split <;> rfl
  · rw [IG.likePost, if_neg hready]
    repeat' split
    all_goals rfl
  · rw [IG.followUser, if_neg hready]
    repeat' split
    all_goals rfl
  · rw [IG.unfollowUser, if_neg hready]
    repeat' split
    all_goals rfl

/-- Witness for C4 (amended): a ready session with every kind of
internal failure still yields boolean results. -/
theorem ig_no_throw_when_ready_witness :
    ((⟨some 0, true⟩ : IG.Session).page ≠ none) ∧
    (IG.createPost ⟨some 0, true⟩ ⟨false⟩).isOk = true ∧
    (IG.commentOnPost ⟨some 0, true⟩ ⟨false⟩).isOk = true ∧
    (IG.likePost ⟨some 0, true⟩ "https://www.instagram.com/p/xyz/"
      ⟨true, false, true, false⟩).isOk = true ∧
    (IG.followUser ⟨some 0, true⟩ "bob" ⟨false, false, true, true⟩).isOk = true ∧
    (IG.unfollowUser ⟨some 0, true⟩ "bob"
      ⟨true, true, true, true, false, true⟩).isOk = true :=
  ⟨by decide, ig_no_throw_when_ready ⟨some 0, true⟩ (by decide) rfl
    "https://www.instagram.com/p/xyz/" "bob" ⟨false⟩ ⟨false⟩
    ⟨true, false, true, false⟩ ⟨false, false, true, true⟩
    ⟨true, true, true, true, false, true⟩⟩

/-- C5 (counterexample): calling the initialization entry point on an
already-authenticated session is not a no-op — even with proxy use
disabled it creates a fresh browser context and page and rebinds the
page handle from 0 to 1. -/
theorem ig_initialize_idempotent_cex :
    IG.initializeBrowser { page := some 0, isLoggedIn := true }
      { useProxy := false, proxyOk := true, contextOk := true, newPageId := 1 }
    = .ok ({ page := some 1, isLoggedIn := true },
        [IG.Ev.newContext, IG.Ev.newPage]) ∧
    ((some 1 : Option Nat) ≠ some 0) := ⟨rfl, by decide⟩

/-- C5 (amended): `initialize()` is not idempotent: on every successful
call — whatever the session state, including already-authenticated — it
creates a new browser context and a new page, rebinds the page handle
to the fresh page, and acquires a proxy whenever proxy use is
configured; the login flag is carried over unchanged. -/
theorem ig_initialize_always_creates (s : IG.Session) (e : IG.InitEnv)
    (s' : IG.Session) (tr : List IG.Ev)
    (h : IG.initializeBrowser s e = .ok (s', tr)) :
    s'.page = some e.newPageId ∧ IG.Ev.newContext ∈ tr ∧
      IG.Ev.newPage ∈ tr ∧ (e.useProxy = true → IG.Ev.acquireProxy ∈ tr) ∧
      s'.isLoggedIn = s.isLoggedIn := by
  rw [IG.initializeBrowser] at h
  split at h
  · cases h
  · split at h
    · cases h
    · simp only [Except.ok.injEq, Prod.mk.injEq] at h
      obtain ⟨hs, ht⟩ := h
      subst hs
      subst ht
      refine ⟨rfl, by simp, by simp, ?_, rfl⟩
      intro hu
      simp [hu]

/-- Witness for C5 (amended): a successful initialization with proxy
use enabled on an authenticated session. -/
theorem ig_initialize_always_creates_witness :
    IG.initializeBrowser ⟨some 0, true⟩
      ⟨true, true, true, 5⟩
    = .ok (⟨some 5, true⟩,
        [IG.Ev.acquireProxy, IG.Ev.newContext, IG.Ev.newPage]) ∧
    ((⟨some 5, true⟩ : IG.Session).page = some 5 ∧
      IG.Ev.newContext ∈ [IG.Ev.acquireProxy, IG.Ev.newContext, IG.Ev.newPage] ∧
      IG.Ev.newPage ∈ [IG.Ev.acquireProxy, IG.Ev.newContext, IG.Ev.newPage] ∧
      (true = true → IG.Ev.acquireProxy ∈
        [IG.Ev.acquireProxy, IG.Ev.newContext, IG.Ev.newPage]) ∧
      (⟨some 5, true⟩ : IG.Session).isLoggedIn
        = (⟨some 0, true⟩ : IG.Session).isLoggedIn) :=
  ⟨rfl, ig_initialize_always_creates ⟨some 0, true⟩ ⟨true, true, true, 5⟩
    ⟨some 5, true⟩ [IG.Ev.acquireProxy, IG.Ev.newContext, IG.Ev.newPage] rfl⟩

/-- C10: the login flag becomes true only through a fully successful
`login()`; every other outcome of every operation — a failed login, or
any result of post/comment/like/follow/unfollow — leaves the session
record (login flag and page handle) exactly as it was. -/
theorem ig_login_flag_frame (s : IG.Session) (el : IG.LoginEnv)
    (pe : IG.PostEnv) (ce : IG.CommentEnv) (le : IG.LikeEnv)
    (fe : IG.FollowEnv) (ue : IG.UnfollowEnv) (postUrl username : String) :
    (∀ s', IG.login s el = .ok (false, s') → s' = s) ∧
    (∀ s', IG.login s el = .ok (true, s') → s' = { s with isLoggedIn := true }) ∧
    (∀ b s', IG.createPost s pe = .ok (b, s') → s' = s) ∧
    (∀ b s', IG.commentOnPost s ce = .ok (b, s') → s' = s) ∧
    (∀ b s' tr, IG.likePost s postUrl le = .ok (b, s', tr) → s' = s) ∧
    (∀ b s' tr, IG.followUser s username fe = .ok (b, s', tr) → s' = s) ∧
    (∀ b s' tr, IG.unfollowUser s username ue = .ok (b, s', tr) → s' = s) := by
  refine ⟨?_, ?_, ?_, ?_, ?_, ?_, ?_⟩
  · intro s' h
    rw [IG.login] at h
    split_ifs at h
    all_goals
      first
        | exact Except.noConfusion h
        | (simp only [Except.ok.injEq, Prod.mk.injEq] at h
           exact h.2.symm)
        | (simp only [Except.ok.injEq, Prod.mk.injEq] at h
           exact absurd h.1 (by decide))
  · intro s' h
    rw [IG.login] at h
    split_ifs at h
    all_goals
      first
        | exact Except.noConfusion h
        | (simp only [Except.ok.injEq, Prod.mk.injEq] at h
           exact h.2.symm)
        | (simp only [Except.ok.injEq, Prod.mk.injEq] at h
           exact absurd h.1 (by decide))
  · intro b s' h
    rw [IG.createPost] at h
    split_ifs at h
    all_goals
      first
        | exact Except.noConfusion h
        | (simp only [Except.ok.injEq, Prod.mk.injEq] at h
           exact h.2.symm)
  · intro b s' h
    rw [IG.commentOnPost] at h
    split_ifs at h
    all_goals
      first
        | exact Except.noConfusion h
        | (simp only [Except.ok.injEq, Prod.mk.injEq] at h
           exact h.2.symm)
  · intro b s' tr h
    rw [IG.likePost] at h
    split_ifs at h
    all_goals
      first
        | exact Except.noConfusion h
        | (simp only [Except.ok.injEq, Prod.mk.injEq] at h
           exact h.2.1.symm)
  · intro b s' tr h
    rw [IG.followUser] at h
    split_ifs at h
    all_goals
      first
        | exact Except.noConfusion h
        | (simp only [Except.ok.injEq, Prod.mk.injEq] at h
           exact h.2.1.symm)
  · intro b s' tr h
    rw [IG.unfollowUser] at h
    split_ifs at h
    all_goals
      first
        | exact Except.noConfusion h
        | (simp only [Except.ok.injEq, Prod.mk.injEq] at h
           exact h.2.1.symm)

/-- Witness for C10: a successful login sets exactly the flag. -/
theorem ig_login_flag_frame_witness :
    IG.login ⟨some 0, false⟩ ⟨true, true, false, false, true⟩
      = .ok (true, ⟨some 0, true⟩) ∧
    (⟨some 0, true⟩ : IG.Session)
      = { (⟨some 0, false⟩ : IG.Session) with isLoggedIn := true } :=
  ⟨rfl, (ig_login_flag_frame ⟨some 0, false⟩ ⟨true, true, false, false, true⟩
      ⟨true⟩ ⟨true⟩ ⟨true, false, true, true⟩ ⟨true, false, true, true⟩
      ⟨true, true, true, false, true, true⟩ "u" "b").2.1
    ⟨some 0, true⟩ rfl⟩
